import Mathlib

/-!
Shallow embedding of the WM-Scraper course-list scraper
(`src/unnamed/part_002`, `src/classes/Class.ts`, `src/scraper.ts`).

JS strings are modelled as `List Char`; JS numbers produced by `parseInt`
as `JSNum` (`nan` or an integer); `null`/`undefined` as `Option`;
thrown exceptions as `Except`.  Stateful methods are embedded as explicit
state-passing functions; an error result carries the state as it was at
the throw point (JS exceptions do not roll back earlier mutations).
-/

namespace WM

/-- JS strings, modelled as lists of characters. -/
abbrev JStr := List Char

/-- A character removed by the setters' `replace(/(\r\n|\n|\r)/gm, "")`
regex: the regex deletes every CR and LF character of the string. -/
def isLineBreak (c : Char) : Bool := c = '\x0a' || c = '\x0d'

/-- `s.replace(/(\r\n|\n|\r)/gm, "")`. -/
def removeLineBreaks (s : JStr) : JStr := s.filter (fun c => !isLineBreak c)

/-- The ASCII whitespace recognized by JS `String.prototype.trim`. -/
def isJsWhitespace (c : Char) : Bool :=
  c = ' ' || c = '\x09' || c = '\x0a' || c = '\x0b' || c = '\x0c' || c = '\x0d'

/-- JS `String.prototype.trim`: drop leading and trailing whitespace. -/
def trimJS (s : JStr) : JStr :=
  ((s.dropWhile isJsWhitespace).reverse.dropWhile isJsWhitespace).reverse

/-- JS `s.replace('*', '')`: with a string pattern, `replace` removes only
the first occurrence of the asterisk. -/
def removeFirstStar : JStr → JStr
  | [] => []
  | c :: cs => if c = '*' then cs else c :: removeFirstStar cs

/-- A decimal digit character. -/
def isDigit (c : Char) : Bool :=
  c = '0' || c = '1' || c = '2' || c = '3' || c = '4' ||
  c = '5' || c = '6' || c = '7' || c = '8' || c = '9'

/-- Numeric value of a digit character. -/
def digitVal (c : Char) : Nat := c.toNat - 48

/-- Value of a digit string, most significant digit first. -/
def digitsToNat (ds : JStr) : Nat := ds.foldl (fun acc c => acc * 10 + digitVal c) 0

/-- The digit character for `d % 10`-style values; values `9` and above
render as the digit 9 (only ever applied to `d < 10`). -/
def digitChar (d : Nat) : Char :=
  match d with
  | 0 => '0' | 1 => '1' | 2 => '2' | 3 => '3' | 4 => '4'
  | 5 => '5' | 6 => '6' | 7 => '7' | 8 => '8' | _ => '9'

/-- Decimal digits of a natural number (fuel-indexed so that it is
structurally recursive and kernel-reducible). -/
def natDigitsAux : Nat → Nat → JStr
  | 0, _ => []
  | fuel + 1, n =>
      if n < 10 then [digitChar n]
      else natDigitsAux fuel (n / 10) ++ [digitChar (n % 10)]

/-- Decimal digit string of a natural number. -/
def natDigits (n : Nat) : JStr := natDigitsAux (n + 1) n

/-- `parseInt` (radix 10) after leading whitespace has been dropped:
an optional sign followed by the longest digit prefix; `none` is `NaN`. -/
def parseIntSign (t : JStr) : Option Int :=
  match t with
  | [] => none
  | c :: cs =>
      if c = '-' then
        let ds := cs.takeWhile isDigit
        if ds = [] then none else some (-(digitsToNat ds : Int))
      else if c = '+' then
        let ds := cs.takeWhile isDigit
        if ds = [] then none else some ((digitsToNat ds : Int))
      else
        let ds := (c :: cs).takeWhile isDigit
        if ds = [] then none else some ((digitsToNat ds : Int))

/-- JS `parseInt(s)` with the default radix: skip leading whitespace, then
parse an optionally signed digit prefix; `none` models `NaN`. -/
def parseIntJS (s : JStr) : Option Int := parseIntSign (s.dropWhile isJsWhitespace)

/-- A JS number as produced by `parseInt`: `NaN` or an integer. -/
inductive JSNum where
  | nan
  | int (n : Int)
deriving DecidableEq

/-- JS `Number.prototype.toString` for the numbers a `JSNum` can hold. -/
def jsNumToString : JSNum → JStr
  | .nan => ['N', 'a', 'N']
  | .int n => if n < 0 then '-' :: natDigits n.natAbs else natDigits n.natAbs

/-- Wrap a `parseInt` result back into a JS number. -/
def toJSNum : Option Int → JSNum
  | none => .nan
  | some n => .int n

/-- The numeric setters of `Class` (`crn`, `projectedEnrollment`,
`currentEnrollment`): `parseInt(x.toString().replace(/(\r\n|\n|\r)/gm, "").trim())`
applied to a string input. -/
def numFromRaw (s : JStr) : JSNum := toJSNum (parseIntJS (trimJS (removeLineBreaks s)))

/-- The `seatsAvailable` setter: like `numFromRaw` but with
`.replace('*', '')` applied between the line-break strip and the trim. -/
def seatsFromRaw (s : JStr) : JSNum :=
  toJSNum (parseIntJS (trimJS (removeFirstStar (removeLineBreaks s))))

/-- The string setters (`courseID`, `title`, `instructor`, `times`):
`id ? id.replace(/(\r\n|\n|\r)/gm, "").trim() : ''` — a falsy input
(absent or the empty string) is stored as the empty string. -/
def strFromRaw (s : Option JStr) : JStr :=
  match s with
  | none => []
  | some s => if s = [] then [] else trimJS (removeLineBreaks s)

/-- The `attributes` setter: map the line-break strip and trim over the list. -/
def attrsFromRaw (xs : List JStr) : List JStr :=
  xs.map (fun a => trimJS (removeLineBreaks a))

/-- The `credits` setter on a number-or-null input (the `loadFromJson` path):
`null` is stored as `null`; otherwise `parseInt(credits.toString()...)`. -/
def creditsFromNum (v : Option JSNum) : Option JSNum :=
  match v with
  | none => none
  | some n => some (toJSNum (parseIntJS (trimJS (removeLineBreaks (jsNumToString n)))))

/-- The `status` setter of `src/classes/Class.ts` (lines 144-152) and of the
`Class` in `src/unnamed/part_002`: an absent (`undefined`, and by JS loose
equality also `null`) status is stored as `'CLOSED'`; a present value must
be exactly `'OPEN'` or `'CLOSED'`, anything else throws. -/
def statusSet (status : Option JStr) : Except String JStr :=
  match status with
  | none => .ok ['C', 'L', 'O', 'S', 'E', 'D']
  | some s =>
      if s = ['O', 'P', 'E', 'N'] || s = ['C', 'L', 'O', 'S', 'E', 'D'] then .ok s
      else .error "Incorrect status type. Must be OPEN or CLOSED."

/-- The private fields of a constructed `Class` object
(`src/unnamed/part_002`, lines 509-676). -/
structure Class where
  crn0 : JSNum
  courseID0 : JStr
  attributes0 : List JStr
  title0 : JStr
  instructor0 : JStr
  credits0 : Option JSNum
  times0 : JStr
  projectedEnrollment0 : JSNum
  currentEnrollment0 : JSNum
  seatsAvailable0 : JSNum
  status0 : JStr
deriving DecidableEq

/-- The `crn` getter: `this._crn.toString()`. -/
def crnGet (c : Class) : JStr := jsNumToString c.crn0

/-- The `statusAsBool` getter: `this._status == 'OPEN'`. -/
def statusAsBool (c : Class) : Bool := c.status0 = ['O', 'P', 'E', 'N']

/-- The `Class` constructor as invoked by `createAndSaveClass`: all eleven
arguments are the cell text strings, with the attribute cell pre-split on
commas.  Only the `status` setter can throw on these inputs; a throw in
the constructor discards the object. -/
def newClassFromCells (c0 c1 : JStr) (c2 : List JStr)
    (c3 c4 c5 c6 c7 c8 c9 c10 : JStr) : Except String Class :=
  match statusSet (some c10) with
  | .error msg => .error msg
  | .ok st =>
      .ok { crn0 := numFromRaw c0
            courseID0 := strFromRaw (some c1)
            attributes0 := attrsFromRaw c2
            title0 := strFromRaw (some c3)
            instructor0 := strFromRaw (some c4)
            credits0 := some (numFromRaw c5)
            times0 := strFromRaw (some c6)
            projectedEnrollment0 := numFromRaw c7
            currentEnrollment0 := numFromRaw c8
            seatsAvailable0 := seatsFromRaw c9
            status0 := st }

/-- JS `String.prototype.split(',')`: split on every comma; the empty
string yields a one-element list holding the empty string. -/
def splitOnCommaAux : JStr → JStr → List JStr
  | [], acc => [acc.reverse]
  | c :: cs, acc =>
      if c = ',' then acc.reverse :: splitOnCommaAux cs []
      else splitOnCommaAux cs (c :: acc)

/-- JS `s.split(',')`. -/
def splitOnComma (s : JStr) : List JStr := splitOnCommaAux s []

/-- The guard clauses and construction of `Scraper.createAndSaveClass`:
require exactly 11 cells and build a `Class` from them, with the attribute
cell split on commas. -/
def classFromRow (classInfo : List JStr) : Except String Class :=
  match classInfo with
  | [c0, c1, c2, c3, c4, c5, c6, c7, c8, c9, c10] =>
      newClassFromCells c0 c1 (splitOnComma c2) c3 c4 c5 c6 c7 c8 c9 c10
  | _ => .error "Invalid classInfo parameter. Must be an array of length 11."

/-- `Scraper.createAndSaveClass`: build the `Class` and push it onto
`classData`. -/
def createAndSaveClass (classData : List Class) (classInfo : List JStr) :
    Except String (List Class) :=
  (classFromRow classInfo).map (fun c => classData ++ [c])

/-- One element of the JSON array written by `Scraper.saveToJson`:
`JSON.stringify` serializes each `Class` object's own fields.  A numeric
field holding `NaN` serializes as JSON `null` (`none` here); `_credits`
may also be `null` for a variable-credit course.  Note that `_status` is
serialized as the stored string, not as a boolean. -/
structure JsonEntry where
  jcrn : Option Int
  jcourseID : JStr
  jattributes : List JStr
  jtitle : JStr
  jinstructor : JStr
  jcredits : Option Int
  jtimes : JStr
  jprojectedEnrollment : Option Int
  jcurrentEnrollment : Option Int
  jseatsAvailable : Option Int
  jstatus : JStr
deriving DecidableEq

/-- `JSON.stringify` of one JS number: `NaN` becomes `null`. -/
def jsNumToJson : JSNum → Option Int
  | .nan => none
  | .int n => some n

/-- `JSON.stringify` of one `Class` object. -/
def saveEntry (c : Class) : JsonEntry :=
  { jcrn := jsNumToJson c.crn0
    jcourseID := c.courseID0
    jattributes := c.attributes0
    jtitle := c.title0
    jinstructor := c.instructor0
    jcredits := match c.credits0 with
      | none => none
      | some n => jsNumToJson n
    jtimes := c.times0
    jprojectedEnrollment := jsNumToJson c.projectedEnrollment0
    jcurrentEnrollment := jsNumToJson c.currentEnrollment0
    jseatsAvailable := jsNumToJson c.seatsAvailable0
    jstatus := c.status0 }

/-- `Scraper.saveToJson` (src/unnamed/part_002, lines 338-341): the file
contents are `JSON.stringify(this.classData, null, 4)` — one array of
per-class objects. -/
def saveToJson (classData : List Class) : List JsonEntry := classData.map saveEntry

/-- JS truthiness of a string: every non-empty string is truthy. -/
def strTruthy (s : JStr) : Bool := s ≠ []

/-- Rebuild one `Class` from a loaded JSON entry, exactly as the
`loadFromJson` loop does: `entry._crn.toString()` (a TypeError if the
value is `null`), the numeric fields passed as numbers (a TypeError if
`null`, except `_credits` whose setter maps `null` to `null`), and
`entry._status ? 'OPEN' : 'CLOSED'` — the truthiness conversion of the
persisted status value. -/
def loadEntry (e : JsonEntry) : Except String Class :=
  match e.jcrn, e.jprojectedEnrollment, e.jcurrentEnrollment, e.jseatsAvailable with
  | some ncrn, some nproj, some ncurr, some nseats =>
      match statusSet (some (if strTruthy e.jstatus then ['O', 'P', 'E', 'N']
                             else ['C', 'L', 'O', 'S', 'E', 'D'])) with
      | .error msg => .error msg
      | .ok st =>
          .ok { crn0 := numFromRaw (jsNumToString (.int ncrn))
                courseID0 := strFromRaw (some e.jcourseID)
                attributes0 := attrsFromRaw e.jattributes
                title0 := strFromRaw (some e.jtitle)
                instructor0 := strFromRaw (some e.jinstructor)
                credits0 := creditsFromNum (e.jcredits.map JSNum.int)
                times0 := strFromRaw (some e.jtimes)
                projectedEnrollment0 := numFromRaw (jsNumToString (.int nproj))
                currentEnrollment0 := numFromRaw (jsNumToString (.int ncurr))
                seatsAvailable0 := seatsFromRaw (jsNumToString (.int nseats))
                status0 := st }
  | _, _, _, _ => .error "TypeError: null has no toString"

/-- The population loop of `loadFromJson`: push each rebuilt class; a throw
mid-loop leaves the classes pushed so far in place. -/
def loadEntries : List JsonEntry → List Class → Except (String × List Class) (List Class)
  | [], acc => .ok acc
  | e :: es, acc =>
      match loadEntry e with
      | .error msg => .error (msg, acc)
      | .ok c => loadEntries es (acc ++ [c])

/-- `Scraper.loadFromJson` (src/unnamed/part_002, lines 349-377) over the
outcome of `JSON.parse` on the file (`none` models a read/parse throw).
The parse throw is re-raised before the collection is cleared, so an error
result carries the caller's `classData` unchanged; on a successful parse
the collection is first emptied and then repopulated entry by entry. -/
def loadFromJson (parsed : Option (List JsonEntry)) (classData : List Class) :
    Except (String × List Class) (List Class) :=
  match parsed with
  | none => .error ("Error loading JSON file", classData)
  | some data => loadEntries data []

/-- `Scraper._logAndExecuteRateLimit` (src/unnamed/part_002 lines 184-196,
src/scraper.ts lines 147-159): the value the code actually computes is
`diff = Date.now() - this.rateLimit`, i.e. the current time minus the
configured interval — the recorded `_lastRequest` timestamp is never read. -/
def rateLimitDiff (now interval : Int) : Int := now - interval

/-- The sleep the rate-limit step performs: `interval - diff` milliseconds
when `diff < interval`, none otherwise. -/
def rateLimitWait (now interval : Int) : Int :=
  if rateLimitDiff now interval < interval then interval - rateLimitDiff now interval else 0

/-- One rate-limit step, returning the milliseconds slept and the updated
`_lastRequest` (recorded as the current time after the sleep; the prior
`lastRequest` argument is listed because the specified computation depends
on it, though the code ignores it). -/
def rateLimitStep (now interval _lastRequest : Int) : Int × Int :=
  (rateLimitWait now interval, now + rateLimitWait now interval)

/-- `Scraper.getTermsAndSubjects` extraction (src/unnamed/part_002, lines
203-228), given the option values of the `term_code` and `term_subj`
dropdowns in DOM order: `termChildren[termChildren.length - 2].value` is
the latest term (reading `.value` of `undefined` throws when there are
fewer than two options), `terms.all` keeps every term option, and the
subject list is every subject option value with the first removed
(`.slice(1)`).  Returns (latest term, all terms, subjects). -/
def getTermsAndSubjects (termOptions subjectOptions : List JStr) :
    Except String (JStr × List JStr × List JStr) :=
  if h : 2 ≤ termOptions.length then
    .ok (termOptions.get ⟨termOptions.length - 2, by omega⟩,
         termOptions, subjectOptions.drop 1)
  else .error "TypeError: undefined has no value"

/-- The `courselistData` discovery state: `terms.latest` (`none` is the
initial `null`) and `subjects` (`none` is the initial `null`). -/
structure CourselistData where
  latest : Option JStr
  subjects : Option (List JStr)
deriving DecidableEq

/-- JS truthiness of `courselistData.terms.latest`: falsy when `null` or
the empty string. -/
def latestTruthy : Option JStr → Bool
  | none => false
  | some s => s ≠ []

/-- JS truthiness of `courselistData.subjects`: an array is always truthy
(even when empty); only `null` is falsy. -/
def subjectsTruthy : Option (List JStr) → Bool
  | none => false
  | some _ => true

/-- The precondition guard at the head of `Scraper.getCourseData`
(src/unnamed/part_002, lines 236-245): only when `terms.latest` and
`subjects` are BOTH falsy does it run `getTermsAndSubjects` (whose outcome
on this call is `disc` — either the updated `courselistData` or a throw)
and then re-check; otherwise it proceeds with the state unchanged. -/
def getCourseDataGuard (disc : Except String CourselistData) (st : CourselistData) :
    Except String CourselistData :=
  if !latestTruthy st.latest && !subjectsTruthy st.subjects then
    match disc with
    | .error e => .error e
    | .ok st2 =>
        if latestTruthy st2.latest && subjectsTruthy st2.subjects then .ok st2
        else .error "Unable to get term from Open Course List."
  else .ok st

/-- The per-subject environment of a traversal: for each subject code, the
11-cell rows of its fetched result table, or a transport/DOM failure. -/
def SubjectEnv : Type := JStr → Except String (List (List JStr))

/-- The row loop of the single-subject branch of `getCourseData`: feed each
row to `createAndSaveClass`; a throw aborts the loop, keeping the classes
already appended. -/
def processRows (classData : List Class) :
    List (List JStr) → Except (String × List Class) (List Class)
  | [] => .ok classData
  | row :: rest =>
      match createAndSaveClass classData row with
      | .error e => .error (e, classData)
      | .ok cd => processRows cd rest

/-- The single-subject branch of `getCourseData` for one subject of an
all-subjects traversal: the recursive call first checks
`courselistData.subjects.includes(subjectCode)`, then fetches the
subject's page (`env`) and runs the row loop. -/
def processSubject (env : SubjectEnv) (known : List JStr) (classData : List Class)
    (subj : JStr) : Except (String × List Class) (List Class) :=
  if subj ∈ known then
    match env subj with
    | .error e => .error (e, classData)
    | .ok rows => processRows classData rows
  else .error ("Subject code is not found.", classData)

/-- The all-subjects branch of `getCourseData` (src/unnamed/part_002, lines
283-288): `for (const subject of this.courselistData.subjects) await
this.getCourseData(subject, ...)`, awaited one subject at a time.  The
first component of the result is the list of subjects actually fetched, in
order; a failure aborts the loop and carries the `classData` accumulated
so far. -/
def runSubjects (env : SubjectEnv) (known : List JStr) :
    List JStr → List Class → List JStr × Except (String × List Class) (List Class)
  | [], cd => ([], .ok cd)
  | s :: rest, cd =>
      match processSubject env known cd s with
      | .error e => ([s], .error e)
      | .ok cd2 =>
          let r := runSubjects env known rest cd2
          (s :: r.1, r.2)

/-- The classes a subject's processing appends when started from an empty
collection (its delta). -/
def subjectDelta (env : SubjectEnv) (known : List JStr) (s : JStr) : List Class :=
  match processSubject env known [] s with
  | .ok d => d
  | .error (_, d) => d

/-- Whether a subject's processing succeeds. -/
def subjectOk (env : SubjectEnv) (known : List JStr) (s : JStr) : Bool :=
  match processSubject env known [] s with
  | .ok _ => true
  | .error _ => false

/-- The error message a failing subject's processing throws. -/
def subjectErr (env : SubjectEnv) (known : List JStr) (s : JStr) : String :=
  match processSubject env known [] s with
  | .ok _ => ""
  | .error (e, _) => e

/-- `Scraper.findClassByCrn` (src/unnamed/part_002, lines 421-423): scan
`classData` in order and return the first class whose `crn` getter equals
the argument; falling off the loop returns `undefined` (`none`). -/
def findClassByCrn (classData : List Class) (crn : JStr) : Option Class :=
  match classData with
  | [] => none
  | c :: rest => if crnGet c = crn then some c else findClassByCrn rest crn

/-- The classes appended by the subjects of a list, each started from an
empty collection, concatenated in list order. -/
def subjectDeltas (env : SubjectEnv) (known : List JStr) : List JStr → List Class
  | [] => []
  | s :: rest => subjectDelta env known s ++ subjectDeltas env known rest

/-- A concrete valid in-memory record whose section is CLOSED, used to
exercise the structured-format round trip. -/
def closedClass : Class :=
  { crn0 := .int 101
    courseID0 := ['C', 'S', 'C', 'I', ' ', '1', '0', '1']
    attributes0 := [['C', '1']]
    title0 := ['I', 'n', 't', 'r', 'o']
    instructor0 := ['S', 'm', 'i', 't', 'h']
    credits0 := some (.int 3)
    times0 := ['M', 'W', 'F']
    projectedEnrollment0 := .int 30
    currentEnrollment0 := .int 30
    seatsAvailable0 := .int 0
    status0 := ['C', 'L', 'O', 'S', 'E', 'D'] }

/-- What the structured round trip actually returns for `closedClass`:
the same record with its status flipped to OPEN. -/
def closedClassReloaded : Class := { closedClass with status0 := ['O', 'P', 'E', 'N'] }

/-- A second valid record, with CRN 102 and status OPEN. -/
def class102 : Class := { closedClass with crn0 := .int 102, status0 := ['O', 'P', 'E', 'N'] }

/-- A valid 11-cell row as extracted from a result table. -/
def rowW : List JStr :=
  [['2', '0', '1'], ['B', 'I', 'O', 'L', ' ', '1'], ['C', '1'], ['B', 'i', 'o'],
   ['J', 'o', 'n', 'e', 's'], ['4'], ['T', 'R'], ['2', '0'], ['1', '9'], ['1'],
   ['O', 'P', 'E', 'N']]

/-- The subject code BIOL. -/
def biolW : JStr := ['B', 'I', 'O', 'L']

/-- The subject code CHEM. -/
def chemW : JStr := ['C', 'H', 'E', 'M']

/-- A concrete traversal environment: fetching BIOL yields one row,
fetching any other subject fails with a transport error. -/
def envW : SubjectEnv := fun s =>
  if s = biolW then .ok [rowW] else .error "TransportError: fetch failed"

/-- The discovered subject list for the concrete traversal. -/
def knownW : List JStr := [biolW, chemW]

end WM

namespace WM

/-! ### Helper lemmas about characters, digits, and decimal rendering -/

theorem isDigit_cases {c : Char} (h : isDigit c = true) :
    c = '0' ∨ c = '1' ∨ c = '2' ∨ c = '3' ∨ c = '4' ∨
    c = '5' ∨ c = '6' ∨ c = '7' ∨ c = '8' ∨ c = '9' := by
  simpa [isDigit, or_assoc] using h

theorem isDigit_not_ws {c : Char} (h : isDigit c = true) : isJsWhitespace c = false := by
  rcases isDigit_cases h with rfl | rfl | rfl | rfl | rfl | rfl | rfl | rfl | rfl | rfl <;> rfl

theorem isDigit_not_lineBreak {c : Char} (h : isDigit c = true) : isLineBreak c = false := by
  rcases isDigit_cases h with rfl | rfl | rfl | rfl | rfl | rfl | rfl | rfl | rfl | rfl <;> rfl

theorem isDigit_ne_star {c : Char} (h : isDigit c = true) : c ≠ '*' := by
  rcases isDigit_cases h with rfl | rfl | rfl | rfl | rfl | rfl | rfl | rfl | rfl | rfl <;> decide

theorem isDigit_ne_minus {c : Char} (h : isDigit c = true) : c ≠ '-' := by
  rcases isDigit_cases h with rfl | rfl | rfl | rfl | rfl | rfl | rfl | rfl | rfl | rfl <;> decide

theorem isDigit_ne_plus {c : Char} (h : isDigit c = true) : c ≠ '+' := by
  rcases isDigit_cases h with rfl | rfl | rfl | rfl | rfl | rfl | rfl | rfl | rfl | rfl <;> decide

theorem ws_not_digit {c : Char} (h : isJsWhitespace c = true) : isDigit c = false := by
  have h2 : c = ' ' ∨ c = '\x09' ∨ c = '\x0a' ∨ c = '\x0b' ∨ c = '\x0c' ∨ c = '\x0d' := by
    simpa [isJsWhitespace, or_assoc] using h
  rcases h2 with rfl | rfl | rfl | rfl | rfl | rfl <;> rfl

theorem isDigit_digitChar (d : Nat) : isDigit (digitChar d) = true := by
  rcases d with _ | _ | _ | _ | _ | _ | _ | _ | _ | d <;> rfl

theorem digitVal_digitChar {d : Nat} (h : d < 10) : digitVal (digitChar d) = d := by
  interval_cases d <;> rfl

theorem natDigitsAux_digits {fuel n : Nat} (h : n < fuel) :
    ∀ c ∈ natDigitsAux fuel n, isDigit c = true := by
  induction fuel generalizing n with
  | zero => omega
  | succ fuel ih =>
      intro c hc
      rw [natDigitsAux] at hc
      by_cases h10 : n < 10
      · simp [h10] at hc
        subst hc
        exact isDigit_digitChar n
      · simp [h10] at hc
        rcases hc with hc | hc
        · exact ih (by have := Nat.div_lt_self (by omega : 0 < n) (by omega : 1 < 10); omega) c hc
        · subst hc
          exact isDigit_digitChar (n % 10)

theorem natDigitsAux_ne_nil {fuel n : Nat} (h : n < fuel) : natDigitsAux fuel n ≠ [] := by
  cases fuel with
  | zero => omega
  | succ fuel =>
      rw [natDigitsAux]
      by_cases h10 : n < 10 <;> simp [h10]

theorem digitsToNat_append_singleton (a : JStr) (c : Char) :
    digitsToNat (a ++ [c]) = digitsToNat a * 10 + digitVal c := by
  simp [digitsToNat, List.foldl_append]

theorem digitsToNat_natDigitsAux {fuel n : Nat} (h : n < fuel) :
    digitsToNat (natDigitsAux fuel n) = n := by
  induction fuel generalizing n with
  | zero => omega
  | succ fuel ih =>
      rw [natDigitsAux]
      by_cases h10 : n < 10
      · simp [h10, digitsToNat, digitVal_digitChar h10]
      · have hdiv : n / 10 < fuel := by
          have := Nat.div_lt_self (by omega : 0 < n) (by omega : 1 < 10)
          omega
        simp [h10, digitsToNat_append_singleton, ih hdiv,
              digitVal_digitChar (Nat.mod_lt n (by omega : 0 < 10))]
        omega

theorem natDigits_digits (n : Nat) : ∀ c ∈ natDigits n, isDigit c = true :=
  natDigitsAux_digits (Nat.lt_succ_self n)

theorem natDigits_ne_nil (n : Nat) : natDigits n ≠ [] :=
  natDigitsAux_ne_nil (Nat.lt_succ_self n)

theorem digitsToNat_natDigits (n : Nat) : digitsToNat (natDigits n) = n :=
  digitsToNat_natDigitsAux (Nat.lt_succ_self n)

/-! ### Helper lemmas about the string-normalization pipeline -/

theorem dropWhile_cons_false {p : Char → Bool} {c : Char} (l : JStr) (h : p c = false) :
    (c :: l).dropWhile p = c :: l := by
  simp [List.dropWhile, h]

theorem dropWhile_append_distrib (p : Char → Bool) (u v : JStr) :
    (u ++ v).dropWhile p =
      if u.dropWhile p = [] then v.dropWhile p else u.dropWhile p ++ v := by
  induction u with
  | nil => simp
  | cons c cs ih =>
      by_cases h : p c
      · simpa [List.dropWhile, h] using ih
      · simp [List.dropWhile, h]

theorem takeWhile_append_of_all {p : Char → Bool} {u : JStr} (v : JStr)
    (hu : ∀ c ∈ u, p c = true) :
    (u ++ v).takeWhile p = u ++ v.takeWhile p := by
  induction u with
  | nil => simp
  | cons c cs ih =>
      have hc : p c = true := hu c (List.mem_cons_self c cs)
      simp [List.takeWhile, hc]
      exact ih (fun d hd => hu d (List.mem_cons_of_mem c hd))

theorem removeFirstStar_append_of_no_star {u : JStr} (v : JStr)
    (hu : ∀ c ∈ u, c ≠ '*') :
    removeFirstStar (u ++ v) = u ++ removeFirstStar v := by
  induction u with
  | nil => simp [removeFirstStar]
  | cons c cs ih =>
      have hc : c ≠ '*' := hu c (List.mem_cons_self c cs)
      simp [removeFirstStar, hc]
      exact ih (fun d hd => hu d (List.mem_cons_of_mem c hd))

theorem mem_removeFirstStar {c : Char} : ∀ {l : JStr}, c ∈ removeFirstStar l → c ∈ l := by
  intro l
  induction l with
  | nil => simp [removeFirstStar]
  | cons d ds ih =>
      by_cases hd : d = '*'
      · simp [removeFirstStar, hd]
        intro h
        exact .inr h
      · simp [removeFirstStar, hd]
        intro h
        rcases h with h | h
        · exact .inl h
        · exact .inr (ih h)

theorem removeLineBreaks_append (u v : JStr) :
    removeLineBreaks (u ++ v) = removeLineBreaks u ++ removeLineBreaks v := by
  simp [removeLineBreaks]

theorem removeLineBreaks_of_digits {u : JStr} (hu : ∀ c ∈ u, isDigit c = true) :
    removeLineBreaks u = u := by
  apply List.filter_eq_self.mpr
  intro c hc
  simp [isDigit_not_lineBreak (hu c hc)]

theorem mem_removeLineBreaks {c : Char} {l : JStr} (h : c ∈ removeLineBreaks l) : c ∈ l :=
  (List.mem_filter.mp h).1

theorem dropWhile_eq_self_of_all {p : Char → Bool} {u : JStr}
    (h : ∀ c ∈ u, p c = false) : u.dropWhile p = u := by
  cases u with
  | nil => rfl
  | cons c cs => exact dropWhile_cons_false cs (h c (List.mem_cons_self c cs))

/-- Trimming a string whose head block is non-whitespace and non-empty:
the leading trim is a no-op and the trailing trim only eats into the tail
block. -/
theorem trimJS_block_append {d : JStr} (r : JStr) (hne : d ≠ [])
    (hd : ∀ c ∈ d, isJsWhitespace c = false) :
    trimJS (d ++ r) = d ++ (r.reverse.dropWhile isJsWhitespace).reverse := by
  obtain ⟨c, cs, rfl⟩ := List.exists_cons_of_ne_nil hne
  have h1 : ((c :: cs) ++ r).dropWhile isJsWhitespace = (c :: cs) ++ r := by
    rw [List.cons_append]
    exact dropWhile_cons_false _ (hd c (List.mem_cons_self c cs))
  have hrev : (c :: cs).reverse.dropWhile isJsWhitespace = (c :: cs).reverse :=
    dropWhile_eq_self_of_all (fun x hx => hd x (List.mem_reverse.mp hx))
  unfold trimJS
  rw [h1, List.reverse_append, dropWhile_append_distrib]
  by_cases hr : r.reverse.dropWhile isJsWhitespace = []
  · rw [if_pos hr, hrev, List.reverse_reverse, hr]
    simp
  · rw [if_neg hr, List.reverse_append, List.reverse_reverse]

/-- `parseInt` of a digit block followed by junk that starts with a
non-digit (or is empty) parses exactly the digit block. -/
theorem parseIntJS_digits_append {d : JStr} (r : JStr) (hne : d ≠ [])
    (hd : ∀ c ∈ d, isDigit c = true)
    (hr : ∀ c ∈ r, isDigit c = false) :
    parseIntJS (d ++ r) = some ((digitsToNat d : Nat) : Int) := by
  obtain ⟨c, cs, rfl⟩ := List.exists_cons_of_ne_nil hne
  have hc : isDigit c = true := hd c (List.mem_cons_self c cs)
  unfold parseIntJS
  rw [List.cons_append, dropWhile_cons_false _ (isDigit_not_ws hc)]
  have htake : (c :: (cs ++ r)).takeWhile isDigit = (c :: cs) ++ r.takeWhile isDigit := by
    rw [← List.cons_append]
    exact takeWhile_append_of_all r hd
  have hrtake : r.takeWhile isDigit = [] := by
    rcases r with _ | ⟨x, xs⟩
    · rfl
    · simp [List.takeWhile, hr x (List.mem_cons_self x xs)]
  simp only [parseIntSign, if_neg (by simpa using isDigit_ne_minus hc),
             if_neg (by simpa using isDigit_ne_plus hc), htake, hrtake, List.append_nil]
  rw [if_neg (by simp)]

theorem mem_of_mem_dropWhile {p : Char → Bool} {c : Char} :
    ∀ {l : JStr}, c ∈ l.dropWhile p → c ∈ l := by
  intro l
  induction l with
  | nil => simp [List.dropWhile]
  | cons d ds ih =>
      by_cases hd : p d
      · rw [List.dropWhile, hd]
        intro h
        exact List.mem_cons_of_mem d (ih h)
      · rw [dropWhile_cons_false ds (by simpa using hd)]
        exact id

/-- Any value accepted by the status setter is one of the two canonical
tokens. -/
theorem statusSet_ok_domain {inp : Option JStr} {r : JStr} (h : statusSet inp = .ok r) :
    r = ['O', 'P', 'E', 'N'] ∨ r = ['C', 'L', 'O', 'S', 'E', 'D'] := by
  cases inp with
  | none =>
      simp [statusSet] at h
      exact .inr h.symm
  | some s =>
      by_cases h1 : s = ['O', 'P', 'E', 'N']
      · subst h1
        simp [statusSet] at h
        exact .inl h.symm
      · by_cases h2 : s = ['C', 'L', 'O', 'S', 'E', 'D']
        · subst h2
          simp [statusSet] at h
          exact .inr h.symm
        · simp [statusSet, h1, h2] at h

/-! ### Claim theorems -/

/-- C1 (code bug): the structured round trip does not reproduce the record
collection.  `saveToJson` serializes the stored `_status` string, but
`loadFromJson` converts it back with the truthiness test
`entry._status ? 'OPEN' : 'CLOSED'`, so the non-empty string
`"CLOSED"` reloads as `OPEN`: loading the file saved from the single valid
CLOSED record `closedClass` yields the record with its status flipped. -/
theorem c1_structured_roundtrip_loses_closed :
    loadFromJson (some (saveToJson [closedClass])) [] = .ok [closedClassReloaded] ∧
    closedClassReloaded.status0 ≠ closedClass.status0 := by
  refine ⟨rfl, by decide⟩

/-- C2 (code bug): the rate-limit step computes
`diff = Date.now() - this.rateLimit`, the current time minus the
configured interval, never reading the recorded last-request timestamp.
At `now = 100000`, `interval = 500`, `lastRequest = 99800`, only 200 ms
have elapsed since the last request, yet the computed wait is 0 and the
request is permitted immediately — and the result is identical for any
other `lastRequest`, such as 0. -/
theorem c2_rate_limit_ignores_last_request :
    rateLimitStep 100000 500 99800 = (0, 100000) ∧
    (100000 : Int) - 99800 < 500 ∧
    rateLimitStep 100000 500 99800 = rateLimitStep 100000 500 0 := by
  refine ⟨by decide, by decide, rfl⟩

/-- C3 counterexample: an absent (`undefined`) status does not fail
construction — the setter's guard clause silently stores `'CLOSED'`. -/
theorem c3_absent_status_silently_closed :
    statusSet none = .ok ['C', 'L', 'O', 'S', 'E', 'D'] := rfl

/-- C3 (amended): for every PRESENT input string, only the exact
case-sensitive tokens `'OPEN'` and `'CLOSED'` are accepted and stored, and
every other present value — including the empty string — causes an error;
an absent/undefined status, however, is silently stored as `'CLOSED'`
rather than failing. -/
theorem c3_status_domain_amended :
    (∀ s : JStr, statusSet (some s) = .ok s ↔
        (s = ['O', 'P', 'E', 'N'] ∨ s = ['C', 'L', 'O', 'S', 'E', 'D'])) ∧
    (∀ s : JStr, s ≠ ['O', 'P', 'E', 'N'] → s ≠ ['C', 'L', 'O', 'S', 'E', 'D'] →
        statusSet (some s) = .error "Incorrect status type. Must be OPEN or CLOSED.") ∧
    statusSet none = .ok ['C', 'L', 'O', 'S', 'E', 'D'] := by
  refine ⟨?_, ?_, rfl⟩
  · intro s
    constructor
    · intro h
      exact statusSet_ok_domain h
    · rintro (rfl | rfl) <;> rfl
  · intro s h1 h2
    simp [statusSet, h1, h2]

/-- C3 witness: the non-token `"PENDING"` and the empty string both fail. -/
theorem c3_status_domain_amended_witness :
    statusSet (some ['P', 'E', 'N', 'D', 'I', 'N', 'G']) =
      .error "Incorrect status type. Must be OPEN or CLOSED." ∧
    statusSet (some []) = .error "Incorrect status type. Must be OPEN or CLOSED." :=
  ⟨c3_status_domain_amended.2.1 _ (by decide) (by decide),
   c3_status_domain_amended.2.1 _ (by decide) (by decide)⟩

/-- C5: on any listing page whose term dropdown has at least two options,
discovery returns as latest term the value of the second-to-last term
option (index 1 of the reversed option list), and as subject list the
values of all subject options except the first, in DOM order. -/
theorem c5_discovery_extraction (termOptions subjectOptions : List JStr)
    (h : 2 ≤ termOptions.length) :
    ∃ latest subjects,
      getTermsAndSubjects termOptions subjectOptions =
        .ok (latest, termOptions, subjects) ∧
      termOptions.reverse[1]? = some latest ∧
      subjects = subjectOptions.drop 1 := by
  refine ⟨termOptions.get ⟨termOptions.length - 2, by omega⟩, subjectOptions.drop 1,
          ?_, ?_, rfl⟩
  · unfold getTermsAndSubjects
    rw [dif_pos h]
  · rw [List.getElem?_reverse (by omega : 1 < termOptions.length)]
    have h2 : termOptions.length - 1 - 1 = termOptions.length - 2 := by omega
    rw [h2]
    simp [List.getElem?_eq_getElem (by omega : termOptions.length - 2 < termOptions.length)]

/-- C5 witness: three term options and three subject options. -/
theorem c5_discovery_extraction_witness :
    ∃ latest subjects,
      getTermsAndSubjects [['2', '0', '1'], ['2', '0', '2'], ['2', '0', '3']]
          [['0'], ['B'], ['C']] =
        .ok (latest, [['2', '0', '1'], ['2', '0', '2'], ['2', '0', '3']], subjects) ∧
      [['2', '0', '1'], ['2', '0', '2'], ['2', '0', '3']].reverse[1]? = some latest ∧
      subjects = [['0'], ['B'], ['C']].drop 1 :=
  c5_discovery_extraction _ _ (by decide)

/-- C6 counterexample: in the state with no term set but a subject list
present, the course-fetch guard triggers no discovery (the discovery
outcome is irrelevant — here it would even fail) and raises no error: the
call proceeds with the term still unset, refuting the claim that a unset
term triggers discovery or a configuration failure. -/
theorem c6_guard_counterexample :
    getCourseDataGuard (.error "DiscoveryError")
        { latest := none, subjects := some [['C', 'S', 'C', 'I']] } =
      .ok { latest := none, subjects := some [['C', 'S', 'C', 'I']] } := rfl

/-- C6 (amended): only when NEITHER a term NOR a subject list has been set
does the course-fetch operation trigger an implicit discovery call; in
that case, if discovery still yields no term the operation fails with the
configuration error, and a throwing discovery propagates its error;
whenever a term or a subject list is already set, the guard passes the
state through unchanged without discovery. -/
theorem c6_guard_amended :
    (∀ (disc : Except String CourselistData) (st st2 : CourselistData),
        latestTruthy st.latest = false → subjectsTruthy st.subjects = false →
        disc = .ok st2 → latestTruthy st2.latest = false →
        getCourseDataGuard disc st = .error "Unable to get term from Open Course List.") ∧
    (∀ (e : String) (st : CourselistData),
        latestTruthy st.latest = false → subjectsTruthy st.subjects = false →
        getCourseDataGuard (.error e) st = .error e) ∧
    (∀ (disc : Except String CourselistData) (st : CourselistData),
        (latestTruthy st.latest || subjectsTruthy st.subjects) = true →
        getCourseDataGuard disc st = .ok st) := by
  refine ⟨?_, ?_, ?_⟩
  · intro disc st st2 h1 h2 h3 h4
    subst h3
    simp [getCourseDataGuard, h1, h2, h4]
  · intro e st h1 h2
    simp [getCourseDataGuard, h1, h2]
  · intro disc st h
    rcases Bool.or_eq_true_iff.mp h with h1 | h1 <;> simp [getCourseDataGuard, h1]

/-- C6 witness: from the empty initial state, a discovery that yields no
term makes the guard fail with the configuration error. -/
theorem c6_guard_amended_witness :
    getCourseDataGuard (.ok { latest := none, subjects := some [] })
        { latest := none, subjects := none } =
      .error "Unable to get term from Open Course List." :=
  c6_guard_amended.1 _ { latest := none, subjects := none }
    { latest := none, subjects := some [] } rfl rfl rfl rfl

/-- C9: when the structured-file load cannot read or parse the file, the
read/parse exception is re-raised before the record collection is
cleared, so the error carries the collection exactly as it was before the
call. -/
theorem c9_load_failure_preserves_collection (classData : List Class) :
    loadFromJson none classData = .error ("Error loading JSON file", classData) := rfl

theorem removeLineBreaks_eq_self {u : JStr} (h : ∀ c ∈ u, isLineBreak c = false) :
    removeLineBreaks u = u := by
  apply List.filter_eq_self.mpr
  intro c hc
  simp [h c hc]

/-- The residue a suffix of asterisk/whitespace/line-break characters
leaves after the line-break strip, the asterisk removal and the trailing
trim contains no digit. -/
theorem suffix_junk_not_digit {suffix : JStr}
    (hsuf : ∀ c ∈ suffix, c = '*' ∨ isJsWhitespace c = true) :
    ∀ c ∈ ((removeFirstStar
        (removeLineBreaks suffix)).reverse.dropWhile isJsWhitespace).reverse,
      isDigit c = false := by
  intro c hc
  have hmem : c ∈ suffix :=
    mem_removeLineBreaks (mem_removeFirstStar
      (List.mem_reverse.mp (mem_of_mem_dropWhile (List.mem_reverse.mp hc))))
  rcases hsuf c hmem with rfl | hws
  · rfl
  · exact ws_not_digit hws

/-- `parseInt` of a minus sign, a digit block, and junk that starts with a
non-digit (or is empty) parses the negated digit block. -/
theorem parseIntJS_neg_digits_append {d : JStr} (r : JStr) (hne : d ≠ [])
    (hd : ∀ c ∈ d, isDigit c = true)
    (hr : ∀ c ∈ r, isDigit c = false) :
    parseIntJS (('-' :: d) ++ r) = some (-(digitsToNat d : Int)) := by
  unfold parseIntJS
  rw [List.cons_append, dropWhile_cons_false _ (by decide)]
  have htake : (d ++ r).takeWhile isDigit = d ++ r.takeWhile isDigit :=
    takeWhile_append_of_all r hd
  have hrtake : r.takeWhile isDigit = [] := by
    rcases r with _ | ⟨x, xs⟩
    · rfl
    · simp [List.takeWhile, hr x (List.mem_cons_self x xs)]
  simp only [parseIntSign, if_pos rfl, htake, hrtake, List.append_nil]
  rw [if_neg hne]
  simp

/-- The seatsAvailable pipeline on an unsigned decimal block followed by
asterisk/whitespace/line-break junk. -/
theorem seatsFromRaw_digits_suffix (n : Nat) (suffix : JStr)
    (hsuf : ∀ c ∈ suffix, c = '*' ∨ isJsWhitespace c = true) :
    seatsFromRaw (natDigits n ++ suffix) = .int (n : Int) := by
  have hd := natDigits_digits n
  have hne := natDigits_ne_nil n
  unfold seatsFromRaw
  rw [removeLineBreaks_append, removeLineBreaks_of_digits hd,
      removeFirstStar_append_of_no_star _ (fun c hc => isDigit_ne_star (hd c hc)),
      trimJS_block_append _ hne (fun c hc => isDigit_not_ws (hd c hc)),
      parseIntJS_digits_append _ hne hd (suffix_junk_not_digit hsuf),
      digitsToNat_natDigits]
  rfl

/-- The seatsAvailable pipeline on a negatively signed decimal block
followed by asterisk/whitespace/line-break junk. -/
theorem seatsFromRaw_neg_digits_suffix (n : Nat) (suffix : JStr)
    (hsuf : ∀ c ∈ suffix, c = '*' ∨ isJsWhitespace c = true) :
    seatsFromRaw (('-' :: natDigits n) ++ suffix) = .int (-(n : Int)) := by
  have hd := natDigits_digits n
  have hblockws : ∀ c ∈ '-' :: natDigits n, isJsWhitespace c = false := by
    intro c hc
    rcases List.mem_cons.mp hc with rfl | hmem
    · rfl
    · exact isDigit_not_ws (hd c hmem)
  have hblocklb : ∀ c ∈ '-' :: natDigits n, isLineBreak c = false := by
    intro c hc
    rcases List.mem_cons.mp hc with rfl | hmem
    · rfl
    · exact isDigit_not_lineBreak (hd c hmem)
  have hblockstar : ∀ c ∈ '-' :: natDigits n, c ≠ '*' := by
    intro c hc
    rcases List.mem_cons.mp hc with rfl | hmem
    · decide
    · exact isDigit_ne_star (hd c hmem)
  unfold seatsFromRaw
  rw [removeLineBreaks_append, removeLineBreaks_eq_self hblocklb,
      removeFirstStar_append_of_no_star _ hblockstar,
      trimJS_block_append _ (by simp) hblockws,
      parseIntJS_neg_digits_append _ (natDigits_ne_nil n) hd (suffix_junk_not_digit hsuf),
      digitsToNat_natDigits]
  rfl

/-- C7: the seatsAvailable setter on any integer — positive, zero, or
negative (a section may be overenrolled) — rendered the way JS renders
numbers, followed by a suffix of asterisk, whitespace and line-break
characters, strips the line breaks, removes the asterisk, trims, and
stores the parsed integer; in particular the raw input "12*\n" is stored
as 12. -/
theorem c7_seats_available_normalization :
    (∀ (m : Int) (suffix : JStr),
        (∀ c ∈ suffix, c = '*' ∨ isJsWhitespace c = true) →
        seatsFromRaw (jsNumToString (.int m) ++ suffix) = .int m) ∧
    seatsFromRaw ['1', '2', '*', '\x0a'] = .int 12 := by
  constructor
  · intro m suffix hsuf
    by_cases hm : m < 0
    · have h1 : jsNumToString (.int m) = '-' :: natDigits m.natAbs := by
        simp [jsNumToString, hm]
      rw [h1, seatsFromRaw_neg_digits_suffix m.natAbs suffix hsuf]
      congr 1
      omega
    · have h1 : jsNumToString (.int m) = natDigits m.natAbs := by
        simp [jsNumToString, hm]
      rw [h1, seatsFromRaw_digits_suffix m.natAbs suffix hsuf]
      congr 1
      omega
  · rfl

/-- C7 witness: the general statement instantiated at 12 and at the
negative −5 (overenrolled), each with the suffix asterisk-newline — for 12
exactly the raw cell text "12*\n". -/
theorem c7_seats_available_normalization_witness :
    seatsFromRaw (jsNumToString (.int 12) ++ ['*', '\x0a']) = .int 12 ∧
    seatsFromRaw (jsNumToString (.int (-5)) ++ ['*', '\x0a']) = .int (-5) :=
  ⟨c7_seats_available_normalization.1 12 ['*', '\x0a'] (by decide),
   c7_seats_available_normalization.1 (-5) ['*', '\x0a'] (by decide)⟩

/-- C8: `findClassByCrn` returns the first record in collection order
whose `crn` getter equals the argument when one exists, and `none`
(JS `undefined`, not an error) when no record matches. -/
theorem c8_find_class_by_crn :
    (∀ (cd : List Class) (crn : JStr),
        (∀ c ∈ cd, crnGet c ≠ crn) → findClassByCrn cd crn = none) ∧
    (∀ (pre : List Class) (c : Class) (post : List Class) (crn : JStr),
        crnGet c = crn → (∀ d ∈ pre, crnGet d ≠ crn) →
        findClassByCrn (pre ++ c :: post) crn = some c) := by
  constructor
  · intro cd crn h
    induction cd with
    | nil => rfl
    | cons c rest ih =>
        rw [findClassByCrn, if_neg (h c (List.mem_cons_self c rest))]
        exact ih (fun d hd => h d (List.mem_cons_of_mem c hd))
  · intro pre c post crn hc hpre
    induction pre with
    | nil =>
        rw [List.nil_append, findClassByCrn, if_pos hc]
    | cons d rest ih =>
        rw [List.cons_append, findClassByCrn, if_neg (hpre d (List.mem_cons_self d rest))]
        exact ih (fun e he => hpre e (List.mem_cons_of_mem d he))

/-- C8 witness: with records of CRNs 101 and 102, looking up "102" finds
the second record and looking up "999" is absent. -/
theorem c8_find_class_by_crn_witness :
    findClassByCrn [closedClass, class102] ['1', '0', '2'] = some class102 ∧
    findClassByCrn [closedClass, class102] ['9', '9', '9'] = none :=
  ⟨c8_find_class_by_crn.2 [closedClass] class102 [] ['1', '0', '2'] (by decide) (by decide),
   c8_find_class_by_crn.1 [closedClass, class102] ['9', '9', '9'] (by decide)⟩

/-- C10: every accepted status value is OPEN or CLOSED; every class that a
construction path (row normalization or structured load) successfully
produces has status OPEN or CLOSED; and `statusAsBool` is true exactly on
OPEN. -/
theorem c10_status_invariant :
    (∀ (inp : Option JStr) (r : JStr), statusSet inp = .ok r →
        r = ['O', 'P', 'E', 'N'] ∨ r = ['C', 'L', 'O', 'S', 'E', 'D']) ∧
    (∀ (row : List JStr) (c : Class), classFromRow row = .ok c →
        c.status0 = ['O', 'P', 'E', 'N'] ∨ c.status0 = ['C', 'L', 'O', 'S', 'E', 'D']) ∧
    (∀ (e : JsonEntry) (c : Class), loadEntry e = .ok c →
        c.status0 = ['O', 'P', 'E', 'N'] ∨ c.status0 = ['C', 'L', 'O', 'S', 'E', 'D']) ∧
    (∀ c : Class, statusAsBool c = true ↔ c.status0 = ['O', 'P', 'E', 'N']) := by
  refine ⟨fun inp r h => statusSet_ok_domain h, ?_, ?_, ?_⟩
  · intro row c h
    rcases row with _ | ⟨c0, _ | ⟨c1, _ | ⟨c2, _ | ⟨c3, _ | ⟨c4, _ | ⟨c5, _ | ⟨c6,
      _ | ⟨c7, _ | ⟨c8, _ | ⟨c9, _ | ⟨c10, _ | ⟨c11, rest⟩⟩⟩⟩⟩⟩⟩⟩⟩⟩⟩⟩ <;>
      simp [classFromRow] at h
    simp only [newClassFromCells] at h
    cases hst : statusSet (some c10) with
    | error msg =>
        rw [hst] at h
        exact absurd h (by simp)
    | ok st =>
        rw [hst] at h
        have h3 := Except.ok.inj h
        rw [← h3]
        exact statusSet_ok_domain hst
  · intro e c h
    rcases e with ⟨jcrn, jcourseID, jattributes, jtitle, jinstructor, jcredits,
      jtimes, jproj, jcurr, jseats, jstatus⟩
    rcases jcrn with _ | ncrn
    · exact absurd h (by simp [loadEntry])
    rcases jproj with _ | nproj
    · exact absurd h (by simp [loadEntry])
    rcases jcurr with _ | ncurr
    · exact absurd h (by simp [loadEntry])
    rcases jseats with _ | nseats
    · exact absurd h (by simp [loadEntry])
    simp only [loadEntry] at h
    cases hst : statusSet (some (if strTruthy jstatus then ['O', 'P', 'E', 'N']
        else ['C', 'L', 'O', 'S', 'E', 'D'])) with
    | error msg =>
        rw [hst] at h
        exact absurd h (by simp)
    | ok st =>
        rw [hst] at h
        have h3 := Except.ok.inj h
        rw [← h3]
        exact statusSet_ok_domain hst
  · intro c
    simp [statusAsBool]

/-- C10 witness: the structured-load construction path at the concrete
entry saved from `closedClass`. -/
theorem c10_status_invariant_witness :
    closedClassReloaded.status0 = ['O', 'P', 'E', 'N'] ∨
    closedClassReloaded.status0 = ['C', 'L', 'O', 'S', 'E', 'D'] :=
  c10_status_invariant.2.2.1 (saveEntry closedClass) closedClassReloaded rfl

/-! ### The traversal lemmas for C4 -/

/-- The row loop started from `cd` appends exactly what it would append
started from the empty collection. -/
theorem processRows_shift (rows : List (List JStr)) :
    ∀ cd : List Class, processRows cd rows =
      match processRows [] rows with
      | .ok d => .ok (cd ++ d)
      | .error (e, d) => .error (e, cd ++ d) := by
  induction rows with
  | nil => intro cd; simp [processRows]
  | cons row rest ih =>
      intro cd
      cases hrow : classFromRow row with
      | error e =>
          simp [processRows, createAndSaveClass, hrow, Except.map]
      | ok c =>
          have l1 := ih (cd ++ [c])
          have l2 := ih [c]
          simp only [processRows, createAndSaveClass, hrow, Except.map,
                     List.nil_append, l1, l2]
          cases processRows [] rest with
          | ok d => simp
          | error ed =>
              rcases ed with ⟨e, d⟩
              simp

/-- Subject processing started from `cd` appends exactly its delta. -/
theorem processSubject_shift (env : SubjectEnv) (known : List JStr) (s : JStr)
    (cd : List Class) :
    processSubject env known cd s =
      match processSubject env known [] s with
      | .ok d => .ok (cd ++ d)
      | .error (e, d) => .error (e, cd ++ d) := by
  unfold processSubject
  by_cases hk : s ∈ known
  · simp only [if_pos hk]
    cases env s with
    | error e => simp
    | ok rows => exact processRows_shift rows cd
  · simp [if_neg hk]

theorem processSubject_of_ok {env : SubjectEnv} {known : List JStr} {s : JStr}
    (h : subjectOk env known s = true) (cd : List Class) :
    processSubject env known cd s = .ok (cd ++ subjectDelta env known s) := by
  rw [processSubject_shift]
  unfold subjectOk at h
  unfold subjectDelta
  cases hps : processSubject env known [] s with
  | ok d => rfl
  | error ed => rw [hps] at h; simp at h

theorem processSubject_of_fail {env : SubjectEnv} {known : List JStr} {s : JStr}
    (h : subjectOk env known s = false) (cd : List Class) :
    processSubject env known cd s =
      .error (subjectErr env known s, cd ++ subjectDelta env known s) := by
  rw [processSubject_shift]
  unfold subjectOk at h
  unfold subjectDelta subjectErr
  cases hps : processSubject env known [] s with
  | ok d => rw [hps] at h; simp at h
  | error ed =>
      rcases ed with ⟨e, d⟩
      rfl

/-- C4: the all-subjects traversal invokes single-subject fetching for
every subject of the discovered list in exactly list order, one at a time;
when every subject succeeds the fetch log is the whole list and the
collection gains each subject's records in order, and when one subject
fails, its fetch is the last one performed (no later subject is fetched)
and every record appended while processing the earlier subjects — plus
those of the failing subject appended before its failure — remains in the
collection. -/
theorem c4_all_subjects_traversal :
    (∀ (env : SubjectEnv) (known subs : List JStr) (cd : List Class),
        (∀ s ∈ subs, subjectOk env known s = true) →
        runSubjects env known subs cd =
          (subs, .ok (cd ++ subjectDeltas env known subs))) ∧
    (∀ (env : SubjectEnv) (known pre : List JStr) (bad : JStr) (post : List JStr)
        (cd : List Class),
        (∀ s ∈ pre, subjectOk env known s = true) →
        subjectOk env known bad = false →
        runSubjects env known (pre ++ bad :: post) cd =
          (pre ++ [bad],
           .error (subjectErr env known bad,
                   cd ++ subjectDeltas env known pre ++ subjectDelta env known bad))) := by
  constructor
  · intro env known subs
    induction subs with
    | nil =>
        intro cd _
        simp [runSubjects, subjectDeltas]
    | cons s rest ih =>
        intro cd h
        have hok := processSubject_of_ok (h s (List.mem_cons_self s rest)) cd
        have hih := ih (cd ++ subjectDelta env known s)
          (fun x hx => h x (List.mem_cons_of_mem s hx))
        simp only [runSubjects, hok, hih, subjectDeltas, List.append_assoc]
  · intro env known pre
    induction pre with
    | nil =>
        intro bad post cd hpre hbad
        have hfail := processSubject_of_fail hbad cd
        simp only [List.nil_append, runSubjects, hfail, subjectDeltas,
                   List.append_nil]
    | cons p rest ih =>
        intro bad post cd hpre hbad
        have hok := processSubject_of_ok (hpre p (List.mem_cons_self p rest)) cd
        have hih := ih bad post (cd ++ subjectDelta env known p)
          (fun x hx => hpre x (List.mem_cons_of_mem p hx)) hbad
        simp only [List.cons_append, runSubjects, List.append_eq, hok, hih,
                   subjectDeltas, List.append_assoc]

/-- C4 witness: subjects [BIOL, CHEM] under the environment where BIOL
yields one row and CHEM's fetch fails: BIOL then CHEM are fetched, in that
order, the traversal aborts, and BIOL's record stays in the collection. -/
theorem c4_all_subjects_traversal_witness :
    runSubjects envW knownW ([biolW] ++ chemW :: []) [] =
      ([biolW] ++ [chemW],
       .error (subjectErr envW knownW chemW,
               [] ++ subjectDeltas envW knownW [biolW] ++ subjectDelta envW knownW chemW)) :=
  c4_all_subjects_traversal.2 envW knownW [biolW] chemW [] []
    (by decide) (by decide)

end WM
